import Mathlib

/-!
Shallow embedding of the `Home` component of `src/app/page.tsx`
(image-to-text converter).

The React state hooks of the component become the fields of `PageState`; the
`imageFileRef` ref is a further field.  Object URLs handed out by
`URL.createObjectURL` are modelled as natural-number handles drawn from a
counter, and the set of not-yet-revoked handles is tracked in
`BrowserState` so that the object-URL lifecycle (creation in
`handleImageChange`, revocation in the `useEffect` cleanup) can be stated.

The external OCR collaborator (tesseract.js) is opaque: a run of
`processImage` is parametrised by a `Collab` value recording which progress
messages the collaborator delivers to the `logger` callback and whether
`createWorker` / `worker.recognize` resolve or reject, and with what.
`worker.terminate()` is modelled as always resolving.  The model counts
worker creations and terminations so that resource-release claims can be
stated.
-/

namespace ImageToText

/-- A user-selected file (the `File` object stored in `imageFileRef`).
Only its identity matters to the orchestration code. -/
structure File where
  name : String
deriving DecidableEq, Repr

/-- The React state of the `Home` component, plus the `imageFileRef` ref.
`selectedImage` holds the object-URL handle for the preview (`null` = `none`). -/
structure PageState where
  selectedImage : Option Nat
  extractedText : String
  progress : Int
  progressLabel : String
  loading : Bool
  error : String
  imageFile : Option File
deriving DecidableEq, Repr

/-- The initial state of the component: `useState` initialisers and a null ref. -/
def initialState : PageState :=
  { selectedImage := none, extractedText := "", progress := 0,
    progressLabel := "Idle", loading := false, error := "", imageFile := none }

/-- A message delivered by tesseract.js to the `logger` callback:
a `status` string and a fractional `progress` (a JS number, modelled as ℚ). -/
structure LogMessage where
  status : String
  progress : Rat
deriving DecidableEq, Repr

/-- The `logger` callback passed to `createWorker` (src/app/page.tsx lines 65-81).
JavaScript `Math.round x` on a non-negative number is `⌊x + 1/2⌋`, which is
`round` of Mathlib on ℚ. -/
def logger (m : LogMessage) (s : PageState) : PageState :=
  if m.status = "recognizing text" then
    { s with progress := round (m.progress * 100),
             progressLabel :=
               "Recognizing text: " ++ toString (round (m.progress * 100)) ++ "%" }
  else if m.status = "loading tesseract core" then
    { s with progressLabel := "Loading Tesseract core..." }
  else if m.status = "initializing tesseract" then
    { s with progressLabel := "Initializing Tesseract..." }
  else if m.status = "loading language traineddata" then
    { s with progressLabel := "Loading language data..." }
  else if m.status = "done" then
    { s with progressLabel := "Finishing up..." }
  else s

/-- Deliver a sequence of collaborator messages to the logger, in order. -/
def applyMsgs (msgs : List LogMessage) (s : PageState) : PageState :=
  msgs.foldl (fun st m => logger m st) s

/-- A value thrown/rejected by the collaborator: either an `Error` object
(carrying `err.message`) or a non-`Error` value. -/
inductive Thrown where
  | errorObj (message : String)
  | other
deriving DecidableEq, Repr

/-- Outcome of `createWorker`: resolves with a worker, or rejects. -/
inductive CreateResult where
  | ok
  | err (e : Thrown)
deriving DecidableEq, Repr

/-- Outcome of `worker.recognize`: resolves with `data.text`, or rejects. -/
inductive RecogResult where
  | ok (text : String)
  | err (e : Thrown)
deriving DecidableEq, Repr

/-- The collaborator behaviour for one run: the messages delivered to the
logger while `createWorker` runs, whether it resolves, the messages delivered
while `recognize` runs, and whether it resolves. -/
structure Collab where
  createMsgs : List LogMessage
  create : CreateResult
  recogMsgs : List LogMessage
  recog : RecogResult
deriving DecidableEq, Repr

/-- The block of `set*` calls at the top of `processImage` (lines 54-58). -/
def startJob (s : PageState) : PageState :=
  { s with loading := true, extractedText := "", progress := 0,
           progressLabel := "Loading Tesseract core...", error := "" }

/-- The `catch` block of `processImage` (lines 95-107). -/
def catchBlock (e : Thrown) (s : PageState) : PageState :=
  { s with
    error :=
      match e with
      | .errorObj msg => "Failed to extract text: " ++ msg
      | .other => "Failed to extract text: An unexpected error occurred.",
    extractedText := "", progress := 0, progressLabel := "Error" }

/-- Result of one invocation of `processImage`: the final component state plus
how many tesseract workers were created and how many were terminated. -/
structure RunState where
  page : PageState
  created : Nat
  terminated : Nat
deriving DecidableEq, Repr

/-- The `processImage` function (src/app/page.tsx lines 48-111), as a function
of the collaborator behaviour `c` for this run and the state `s` at entry.

Paths, mirroring the source: early return when no file is selected; otherwise
the try block creates a worker (delivering `c.createMsgs` to the logger),
awaits `recognize` (delivering `c.recogMsgs`), and on success stores the text,
sets progress to 100 and label "Done!" and then awaits `worker.terminate()`;
a rejection of `createWorker` or `recognize` jumps to the catch block, which
does NOT terminate the worker; the `finally` clears `loading` on every
try/catch path. -/
def processImage (c : Collab) (s : PageState) : RunState :=
  match s.imageFile with
  | none =>
    ⟨{ s with error := "Please select an image first to start conversion." }, 0, 0⟩
  | some _ =>
    let s1 := startJob s
    match c.create with
    | .err e =>
      ⟨{ catchBlock e (applyMsgs c.createMsgs s1) with loading := false }, 0, 0⟩
    | .ok =>
      let s2 := applyMsgs c.recogMsgs (applyMsgs c.createMsgs s1)
      match c.recog with
      | .err e =>
        ⟨{ catchBlock e s2 with loading := false }, 1, 0⟩
      | .ok text =>
        ⟨{ s2 with extractedText := text, progress := 100,
                   progressLabel := "Done!", loading := false }, 1, 1⟩

/-- The browser-level state around the component: the component state, the
counter from which `URL.createObjectURL` draws fresh handles, and the list of
handles created but not yet revoked. -/
structure BrowserState where
  page : PageState
  nextUrl : Nat
  liveUrls : List Nat
deriving DecidableEq, Repr

/-- The browser state at mount: initial component state, no live object URLs. -/
def initBrowser : BrowserState :=
  { page := initialState, nextUrl := 0, liveUrls := [] }

/-- `URL.createObjectURL`: returns a fresh handle and marks it live. -/
def createObjectURL (b : BrowserState) : Nat × BrowserState :=
  (b.nextUrl, { b with nextUrl := b.nextUrl + 1, liveUrls := b.nextUrl :: b.liveUrls })

/-- `URL.revokeObjectURL`: removes a handle from the live list. -/
def revokeObjectURL (u : Nat) (b : BrowserState) : BrowserState :=
  { b with liveUrls := b.liveUrls.erase u }

/-- `handleImageChange` (src/app/page.tsx lines 30-42), with
`event.target.files` modelled as a list.  When the list is nonempty, it stores
the first file in the ref, creates an object URL for the preview, and resets
text, progress, label and error. -/
def handleImageChange (files : List File) (b : BrowserState) : BrowserState :=
  match files.head? with
  | none => b
  | some f =>
    let (u, b1) := createObjectURL b
    { b1 with page :=
        { b1.page with imageFile := some f, selectedImage := some u,
                       extractedText := "", progress := 0,
                       progressLabel := "Idle", error := "" } }

/-- The `useEffect` cleanup (src/app/page.tsx lines 118-124): when
`selectedImage` changes, React runs the cleanup of the previous effect, which
revokes the previous object URL if there was one. -/
def effectCleanup (prev : Option Nat) (b : BrowserState) : BrowserState :=
  match prev with
  | none => b
  | some u => revokeObjectURL u b

/-- One user image selection as the browser performs it: run
`handleImageChange`; if that changed `selectedImage` (it does exactly when a
file was picked), React runs the cleanup for the previous value of
`selectedImage`. -/
def selectStep (files : List File) (b : BrowserState) : BrowserState :=
  match files.head? with
  | none => b
  | some _ => effectCleanup b.page.selectedImage (handleImageChange files b)

/-- The `disabled` predicate of the convert button
(src/app/page.tsx line 168: `!imageFileRef.current || loading`). -/
def convertDisabled (s : PageState) : Bool :=
  s.imageFile.isNone || s.loading

/-- A click of the convert button: a disabled button fires no `onClick`
handler, so `processImage` runs only when `convertDisabled` is false. -/
def clickConvert (c : Collab) (s : PageState) : RunState :=
  if convertDisabled s then ⟨s, 0, 0⟩ else processImage c s

/-- The value rejected during a run of the try block, if any: the rejection of
`createWorker`, or else the rejection of `recognize`. -/
def runError (c : Collab) : Option Thrown :=
  match c.create with
  | .err e => some e
  | .ok =>
    match c.recog with
    | .err e => some e
    | .ok _ => none

/-- The effect of one logger message on the `progress` field alone
(the first branch of `logger` writes `Math.round(m.progress * 100)`,
every other branch leaves `progress` alone). -/
def stepProgress (p : Int) (m : LogMessage) : Int :=
  if m.status = "recognizing text" then round (m.progress * 100) else p

/-- The messages of a sequence whose status is `recognizing text`:
the ones whose delivery changes the stored progress percentage. -/
def recognizingMsgs (msgs : List LogMessage) : List LogMessage :=
  msgs.filter fun m => decide (m.status = "recognizing text")

/-- The fractional progress values of the `recognizing text` messages of a
sequence, in delivery order. -/
def recognizingFractions (msgs : List LogMessage) : List Rat :=
  (recognizingMsgs msgs).map fun m => m.progress

/-- The successive values taken by the `progress` state over one run of
`processImage` with a file selected: the initial reset to 0, the value after
each delivered logger message, and the final value written by the success
path (100) or by the catch block (0). -/
def progressTrace (c : Collab) : List Int :=
  match c.create with
  | .err _ => (c.createMsgs.scanl stepProgress 0) ++ [0]
  | .ok =>
    match c.recog with
    | .err _ => ((c.createMsgs ++ c.recogMsgs).scanl stepProgress 0) ++ [0]
    | .ok _ => ((c.createMsgs ++ c.recogMsgs).scanl stepProgress 0) ++ [100]

/-- The object-URL bookkeeping invariant of the component: the live handles
are exactly the current preview handle, and every live handle was drawn from
the counter. -/
def UrlInvariant (b : BrowserState) : Prop :=
  b.liveUrls = b.page.selectedImage.toList ∧ ∀ h ∈ b.liveUrls, h < b.nextUrl

/-- A sequence of consecutive user image selections, one file each. -/
def selectMany (fs : List File) (b : BrowserState) : BrowserState :=
  fs.foldl (fun b f => selectStep [f] b) b

/-- A state with a file selected and everything else initial. -/
def sReceipt : PageState :=
  { initialState with imageFile := some ⟨"receipt.png"⟩ }

/-- Collaborator behaviour for the receipt scenario of the spec: phases
loading → initializing → recognizing 0.25 → recognizing 0.9 → done, then
`recognize` resolves with "TOTAL $12.34". -/
def scenarioCollab : Collab :=
  { createMsgs := [⟨"loading tesseract core", 0⟩, ⟨"initializing tesseract", 0⟩],
    create := .ok,
    recogMsgs := [⟨"recognizing text", 1/4⟩, ⟨"recognizing text", 9/10⟩, ⟨"done", 1⟩],
    recog := .ok "TOTAL $12.34" }

/-- Collaborator behaviour where `recognize` rejects with
`Error("network error")` and no progress messages are delivered. -/
def netErrCollab : Collab :=
  { createMsgs := [], create := .ok, recogMsgs := [],
    recog := .err (.errorObj "network error") }

/-- Collaborator behaviour that succeeds immediately with empty text. -/
def quietCollab : Collab :=
  { createMsgs := [], create := .ok, recogMsgs := [], recog := .ok "" }

/-- A state in the middle of an active job: a file is selected, `loading` is
true, and partial state from the active job is present. -/
def busyState : PageState :=
  { initialState with imageFile := some ⟨"receipt.png"⟩, loading := true,
                      extractedText := "partial result",
                      progressLabel := "Recognizing text: 40%", progress := 40 }

/-- Collaborator behaviour whose recognizing fractions lie in [0,1] but
arrive out of order (0.9 then 0.25), and whose `recognize` call then rejects. -/
def decCollab : Collab :=
  { createMsgs := [],
    create := .ok,
    recogMsgs := [⟨"recognizing text", 9/10⟩, ⟨"recognizing text", 1/4⟩],
    recog := .err .other }

/-- A message sequence ending in a second recognizing-text message, for
exercising latest-value-wins. -/
def latestMsgs : List LogMessage :=
  [⟨"recognizing text", 1/4⟩, ⟨"done", 1⟩, ⟨"recognizing text", 9/10⟩]

/-- Collaborator behaviour with in-order recognizing fractions (0.25 then
0.9) and a successful recognition. -/
def incCollab : Collab :=
  { createMsgs := [⟨"loading tesseract core", 0⟩],
    create := .ok,
    recogMsgs := [⟨"recognizing text", 1/4⟩, ⟨"recognizing text", 9/10⟩],
    recog := .ok "TOTAL $12.34" }

/-! ### Supporting lemmas -/

theorem logger_progress (m : LogMessage) (s : PageState) :
    (logger m s).progress = stepProgress s.progress m := by
  unfold logger stepProgress
  split_ifs <;> rfl

/-! ### C4: convert with no file selected -/

/-- C4: when no file is selected (`imageFileRef.current` is null),
`processImage` fails immediately: it sets the inline error message asking the
user to select an image first, creates no worker/job, and leaves `loading`,
`extractedText`, `progress`, `progressLabel` and the preview handle
unchanged. -/
theorem processImage_no_file_rejects (c : Collab) (s : PageState)
    (h : s.imageFile = none) :
    (processImage c s).page.error = "Please select an image first to start conversion." ∧
    (processImage c s).page.loading = s.loading ∧
    (processImage c s).page.extractedText = s.extractedText ∧
    (processImage c s).page.progress = s.progress ∧
    (processImage c s).page.progressLabel = s.progressLabel ∧
    (processImage c s).page.selectedImage = s.selectedImage ∧
    (processImage c s).created = 0 := by
  simp [processImage, h]

/-- Witness for C4 at the initial state (no file selected). -/
theorem processImage_no_file_rejects_witness :
    (processImage quietCollab initialState).page.error = "Please select an image first to start conversion." ∧
    (processImage quietCollab initialState).page.loading = initialState.loading ∧
    (processImage quietCollab initialState).page.extractedText = initialState.extractedText ∧
    (processImage quietCollab initialState).page.progress = initialState.progress ∧
    (processImage quietCollab initialState).page.progressLabel = initialState.progressLabel ∧
    (processImage quietCollab initialState).page.selectedImage = initialState.selectedImage ∧
    (processImage quietCollab initialState).created = 0 :=
  processImage_no_file_rejects quietCollab initialState rfl

/-! ### C7: successful recognition -/

/-- C7: when a file is selected, `createWorker` resolves, and `recognize`
resolves with text `t`, the final state stores exactly `t`, sets progress to
100, reaches the Done label, and clears `loading`. -/
theorem processImage_success (c : Collab) (s : PageState) (f : File) (t : String)
    (hf : s.imageFile = some f) (hc : c.create = .ok) (hr : c.recog = .ok t) :
    (processImage c s).page.extractedText = t ∧
    (processImage c s).page.progress = 100 ∧
    (processImage c s).page.progressLabel = "Done!" ∧
    (processImage c s).page.loading = false := by
  simp [processImage, hf, hc, hr]

/-- Witness for C7: the receipt scenario of the spec, with phases
loading → initializing → recognizing 0.25 → recognizing 0.9 → done and text
"TOTAL $12.34". -/
theorem processImage_success_witness :
    (processImage scenarioCollab sReceipt).page.extractedText = "TOTAL $12.34" ∧
    (processImage scenarioCollab sReceipt).page.progress = 100 ∧
    (processImage scenarioCollab sReceipt).page.progressLabel = "Done!" ∧
    (processImage scenarioCollab sReceipt).page.loading = false :=
  processImage_success scenarioCollab sReceipt ⟨"receipt.png"⟩ "TOTAL $12.34" rfl rfl rfl

/-! ### C1: worker termination -/

/-- C1 (code bug evidence): when `createWorker` resolves but `recognize`
rejects, the run creates one worker and terminates none — the catch block of
`processImage` never reaches the `worker.terminate()` call, which sits on the
success path only. -/
theorem recognize_rejection_worker_not_terminated (c : Collab) (s : PageState)
    (f : File) (e : Thrown)
    (hf : s.imageFile = some f) (hc : c.create = .ok) (hr : c.recog = .err e) :
    (processImage c s).created = 1 ∧ (processImage c s).terminated = 0 := by
  simp [processImage, hf, hc, hr]

/-- Witness for C1 evidence: `recognize` rejects with Error "network error". -/
theorem recognize_rejection_worker_not_terminated_witness :
    (processImage netErrCollab sReceipt).created = 1 ∧
    (processImage netErrCollab sReceipt).terminated = 0 :=
  recognize_rejection_worker_not_terminated netErrCollab sReceipt
    ⟨"receipt.png"⟩ (.errorObj "network error") rfl rfl rfl

/-! ### C3: failed state -/

/-- C3 counterexample: for the collaborator rejecting with
Error "network error", the stored error message is the prefixed string
"Failed to extract text: network error", not the bare collaborator text. -/
theorem error_message_not_bare_collaborator_text :
    (processImage netErrCollab sReceipt).page.error = "Failed to extract text: network error" ∧
    (processImage netErrCollab sReceipt).page.error ≠ "network error" := by
  decide

/-- C3 (amended): on any rejection of `createWorker` or `recognize`, the run
ends in the failed state: the error message is "Failed to extract text: "
followed by the collaborator error text when the thrown value is an `Error`,
and the fixed fallback sentence otherwise; `extractedText` is empty,
`progress` is 0, the label is "Error", and `loading` is cleared. -/
theorem processImage_failure_state (c : Collab) (s : PageState) (f : File) (e : Thrown)
    (hf : s.imageFile = some f) (he : runError c = some e) :
    (processImage c s).page.error =
      (match e with
       | .errorObj msg => "Failed to extract text: " ++ msg
       | .other => "Failed to extract text: An unexpected error occurred.") ∧
    (processImage c s).page.extractedText = "" ∧
    (processImage c s).page.progress = 0 ∧
    (processImage c s).page.progressLabel = "Error" ∧
    (processImage c s).page.loading = false := by
  cases hcr : c.create with
  | err e2 =>
    have he2 : e2 = e := by simpa [runError, hcr] using he
    subst he2
    simp [processImage, hf, hcr, catchBlock]
    cases e2 <;> rfl
  | ok =>
    cases hrec : c.recog with
    | ok t => simp [runError, hcr, hrec] at he
    | err e2 =>
      have he2 : e2 = e := by simpa [runError, hcr, hrec] using he
      subst he2
      simp [processImage, hf, hcr, hrec, catchBlock]
      cases e2 <;> rfl

/-- Witness for C3 (amended) at the "network error" rejection. -/
theorem processImage_failure_state_witness :
    (processImage netErrCollab sReceipt).page.error =
      (match Thrown.errorObj "network error" with
       | .errorObj msg => "Failed to extract text: " ++ msg
       | .other => "Failed to extract text: An unexpected error occurred.") ∧
    (processImage netErrCollab sReceipt).page.extractedText = "" ∧
    (processImage netErrCollab sReceipt).page.progress = 0 ∧
    (processImage netErrCollab sReceipt).page.progressLabel = "Error" ∧
    (processImage netErrCollab sReceipt).page.loading = false :=
  processImage_failure_state netErrCollab sReceipt ⟨"receipt.png"⟩
    (.errorObj "network error") rfl rfl

/-! ### C2: single active job -/

/-- C2 counterexample: `processImage` itself has no active-job guard.  In a
state where `loading` is true (a job is active) and a file is selected,
invoking it is not rejected: it creates a worker and changes the component
state. -/
theorem processImage_ignores_loading_flag :
    busyState.loading = true ∧
    (processImage netErrCollab busyState).created = 1 ∧
    (processImage netErrCollab busyState).page ≠ busyState := by
  decide

/-- C2 (amended): re-entry while a job is active is prevented by the UI, not
by `processImage`: the convert button is disabled whenever `loading` is true,
so a click performs nothing — no state change, no worker created. -/
theorem button_guard_active_job (c : Collab) (s : PageState) (h : s.loading = true) :
    clickConvert c s = ⟨s, 0, 0⟩ := by
  simp [clickConvert, convertDisabled, h]

/-- Witness for C2 (amended) at a busy state. -/
theorem button_guard_active_job_witness :
    clickConvert netErrCollab busyState = ⟨busyState, 0, 0⟩ :=
  button_guard_active_job netErrCollab busyState rfl

/-! ### C10: logger frame conditions -/

/-- C10: a logger message whose status is not "recognizing text" leaves the
stored progress percentage unchanged, and a message matching none of the five
recognized status strings leaves the whole state unchanged. -/
theorem logger_frame (m : LogMessage) (s : PageState) :
    (m.status ≠ "recognizing text" → (logger m s).progress = s.progress) ∧
    (m.status ∉ ["recognizing text", "loading tesseract core", "initializing tesseract",
                 "loading language traineddata", "done"] → logger m s = s) := by
  constructor
  · intro h
    simp [logger_progress, stepProgress, h]
  · intro h
    simp only [List.mem_cons, List.not_mem_nil, or_false, not_or] at h
    obtain ⟨h1, h2, h3, h4, h5⟩ := h
    simp [logger, h1, h2, h3, h4, h5]

/-- Witness for C10: a "done" message keeps progress, an unrecognized status
keeps the whole state. -/
theorem logger_frame_witness :
    (logger ⟨"done", 1⟩ sReceipt).progress = sReceipt.progress ∧
    logger ⟨"status unknown", 1⟩ sReceipt = sReceipt :=
  ⟨(logger_frame ⟨"done", 1⟩ sReceipt).1 (by decide),
   (logger_frame ⟨"status unknown", 1⟩ sReceipt).2 (by decide)⟩

/-! ### C5: progress derivation and latest-value-wins -/

theorem applyMsgs_append (msgs1 msgs2 : List LogMessage) (s : PageState) :
    applyMsgs (msgs1 ++ msgs2) s = applyMsgs msgs2 (applyMsgs msgs1 s) := by
  simp [applyMsgs, List.foldl_append]

theorem applyMsgs_progress (msgs : List LogMessage) (s : PageState) :
    (applyMsgs msgs s).progress =
      match (recognizingMsgs msgs).getLast? with
      | some m => round (m.progress * 100)
      | none => s.progress := by
  induction msgs using List.reverseRecOn with
  | nil => rfl
  | append_singleton ms m ih =>
    rw [applyMsgs_append]
    have hlog : (applyMsgs [m] (applyMsgs ms s)).progress
        = stepProgress (applyMsgs ms s).progress m := by
      simp [applyMsgs, logger_progress]
    rw [hlog]
    by_cases hm : m.status = "recognizing text"
    · have hrec : recognizingMsgs (ms ++ [m]) = recognizingMsgs ms ++ [m] := by
        simp [recognizingMsgs, List.filter_append, hm]
      rw [hrec, List.getLast?_concat]
      simp [stepProgress, hm]
    · have hrec : recognizingMsgs (ms ++ [m]) = recognizingMsgs ms := by
        simp [recognizingMsgs, List.filter_append, hm]
      rw [hrec]
      simp [stepProgress, hm, ih]

theorem quarter_nonneg : (0 : ℚ) ≤ 1/4 := by norm_num

theorem quarter_le_one : (1/4 : ℚ) ≤ 1 := by norm_num

/-- C5: a logger message with status "recognizing text" and fraction `p` sets
the stored progress to `round (p * 100)`; and over any message sequence
applied in delivery order, the resulting progress is that of the latest
recognizing-text message (unchanged if there is none) — no averaging or
smoothing. -/
theorem logger_recognizing_progress (p : ℚ) (s : PageState) (msgs : List LogMessage)
    (h0 : 0 ≤ p) (h1 : p ≤ 1) :
    (logger ⟨"recognizing text", p⟩ s).progress = round (p * 100) ∧
    (applyMsgs msgs s).progress =
      (match (recognizingMsgs msgs).getLast? with
       | some m => round (m.progress * 100)
       | none => s.progress) :=
  ⟨by simp [logger_progress, stepProgress], applyMsgs_progress msgs s⟩

/-- Witness for C5 at fraction 0.25 and a sequence whose latest
recognizing-text message reports 0.9. -/
theorem logger_recognizing_progress_witness :
    (logger ⟨"recognizing text", 1/4⟩ sReceipt).progress = round ((1/4 : ℚ) * 100) ∧
    (applyMsgs latestMsgs sReceipt).progress =
      (match (recognizingMsgs latestMsgs).getLast? with
       | some m => round (m.progress * 100)
       | none => sReceipt.progress) :=
  logger_recognizing_progress (1/4) sReceipt latestMsgs quarter_nonneg quarter_le_one

/-! ### C6: selecting a new image resets job state -/

/-- C6: selecting a new image file stores it in the ref, clears previously
extracted text, resets progress to 0, sets the label to Idle, clears the
error message, and replaces the display handle with a newly created one
(distinct from the previous handle). -/
theorem handleImageChange_resets (b : BrowserState) (f : File) (fs : List File)
    (hfresh : ∀ u ∈ b.page.selectedImage, u < b.nextUrl) :
    (handleImageChange (f :: fs) b).page.extractedText = "" ∧
    (handleImageChange (f :: fs) b).page.progress = 0 ∧
    (handleImageChange (f :: fs) b).page.progressLabel = "Idle" ∧
    (handleImageChange (f :: fs) b).page.error = "" ∧
    (handleImageChange (f :: fs) b).page.imageFile = some f ∧
    (handleImageChange (f :: fs) b).page.selectedImage = some b.nextUrl ∧
    (handleImageChange (f :: fs) b).page.selectedImage ≠ b.page.selectedImage := by
  refine ⟨rfl, rfl, rfl, rfl, rfl, rfl, ?_⟩
  have hsel : (handleImageChange (f :: fs) b).page.selectedImage = some b.nextUrl := rfl
  rw [hsel]
  cases hb : b.page.selectedImage with
  | none => simp
  | some u =>
    have hu := hfresh u (by rw [hb]; rfl)
    simp only [Ne, Option.some_inj]
    omega

/-- Witness for C6: the first selection at mount. -/
theorem handleImageChange_resets_witness :
    (handleImageChange [⟨"a.png"⟩] initBrowser).page.extractedText = "" ∧
    (handleImageChange [⟨"a.png"⟩] initBrowser).page.progress = 0 ∧
    (handleImageChange [⟨"a.png"⟩] initBrowser).page.progressLabel = "Idle" ∧
    (handleImageChange [⟨"a.png"⟩] initBrowser).page.error = "" ∧
    (handleImageChange [⟨"a.png"⟩] initBrowser).page.imageFile = some ⟨"a.png"⟩ ∧
    (handleImageChange [⟨"a.png"⟩] initBrowser).page.selectedImage = some initBrowser.nextUrl ∧
    (handleImageChange [⟨"a.png"⟩] initBrowser).page.selectedImage ≠ initBrowser.page.selectedImage :=
  handleImageChange_resets initBrowser ⟨"a.png"⟩ [] (by simp [initBrowser, initialState])

/-! ### C9: object-URL lifecycle -/

theorem selectStep_invariant (files : List File) (b : BrowserState)
    (hb : UrlInvariant b) : UrlInvariant (selectStep files b) := by
  obtain ⟨hlive, hfresh⟩ := hb
  cases hfl : files.head? with
  | none =>
    constructor <;> simp only [selectStep, hfl]
    · exact hlive
    · exact hfresh
  | some f =>
    cases hsel : b.page.selectedImage with
    | none =>
      have h0 : b.liveUrls = [] := by rw [hlive, hsel]; rfl
      constructor
      · simp [selectStep, hfl, handleImageChange, effectCleanup, createObjectURL, hsel, h0]
      · intro u hu
        simp [selectStep, hfl, handleImageChange, effectCleanup, createObjectURL,
              hsel, h0] at hu ⊢
        omega
    | some u0 =>
      have h0 : b.liveUrls = [u0] := by rw [hlive, hsel]; rfl
      have hu0 : u0 < b.nextUrl := hfresh u0 (by rw [h0]; exact List.mem_singleton_self u0)
      have hne : b.nextUrl ≠ u0 := by omega
      constructor
      · simp [selectStep, hfl, handleImageChange, effectCleanup, revokeObjectURL,
              createObjectURL, hsel, h0, List.erase_cons, hne]
      · intro u hu
        simp [selectStep, hfl, handleImageChange, effectCleanup, revokeObjectURL,
              createObjectURL, hsel, h0, List.erase_cons, hne] at hu ⊢
        omega

theorem selectMany_invariant (fs : List File) (b : BrowserState)
    (hb : UrlInvariant b) : UrlInvariant (selectMany fs b) := by
  induction fs generalizing b with
  | nil => exact hb
  | cons f rest ih =>
    simpa [selectMany] using ih (selectStep [f] b) (selectStep_invariant [f] b hb)

theorem selectStep_selected (f : File) (b : BrowserState) :
    (selectStep [f] b).page.selectedImage = some b.nextUrl := by
  cases hsel : b.page.selectedImage <;>
    simp [selectStep, handleImageChange, effectCleanup, revokeObjectURL,
          createObjectURL, hsel]

theorem selectMany_concat (gs : List File) (f : File) (b : BrowserState) :
    selectMany (gs ++ [f]) b = selectStep [f] (selectMany gs b) := by
  simp [selectMany, List.foldl_append]

theorem initBrowser_invariant : UrlInvariant initBrowser :=
  ⟨rfl, by simp [initBrowser]⟩

/-- C9: after any nonempty sequence of consecutive image selections starting
at mount, exactly one display handle remains live: the handle created for the
last selection. -/
theorem selections_leave_single_live_handle (fs : List File) (hne : fs ≠ []) :
    ∃ u, (selectMany fs initBrowser).page.selectedImage = some u ∧
         (selectMany fs initBrowser).liveUrls = [u] := by
  induction fs using List.reverseRecOn with
  | nil => exact absurd rfl hne
  | append_singleton gs f _ =>
    refine ⟨(selectMany gs initBrowser).nextUrl, ?_, ?_⟩
    · rw [selectMany_concat]
      exact selectStep_selected f _
    · obtain ⟨hlive, -⟩ :=
        selectMany_invariant (gs ++ [f]) initBrowser initBrowser_invariant
      rw [hlive, selectMany_concat, selectStep_selected]
      rfl

/-- Witness for C9: two consecutive selections. -/
theorem selections_leave_single_live_handle_witness :
    ∃ u, (selectMany [⟨"a.png"⟩, ⟨"b.png"⟩] initBrowser).page.selectedImage = some u ∧
         (selectMany [⟨"a.png"⟩, ⟨"b.png"⟩] initBrowser).liveUrls = [u] :=
  selections_leave_single_live_handle [⟨"a.png"⟩, ⟨"b.png"⟩] (by decide)

/-! ### C8: progress monotonicity and bounds -/

theorem round_mul100_mono {a b : ℚ} (h : a ≤ b) : round (a * 100) ≤ round (b * 100) := by
  rw [round_eq, round_eq]
  exact Int.floor_le_floor (by linarith)

theorem round_mul100_nonneg {q : ℚ} (h : 0 ≤ q) : 0 ≤ round (q * 100) := by
  have h2 := round_mul100_mono h
  simpa using h2

theorem round_mul100_le_100 {q : ℚ} (h : q ≤ 1) : round (q * 100) ≤ 100 := by
  have h2 := round_mul100_mono h
  have h3 : round ((1 : ℚ) * 100) = 100 := by norm_num [round_eq]
  omega

theorem scanl_head? {α β : Type} (g : α → β → α) (a : α) (l : List β) :
    (l.scanl g a).head? = some a := by
  cases l <;> rfl

theorem recognizingFractions_mem {msgs : List LogMessage} {q : ℚ}
    (hq : q ∈ recognizingFractions msgs) :
    ∃ m ∈ msgs, m.status = "recognizing text" ∧ m.progress = q := by
  simp only [recognizingFractions, recognizingMsgs, List.mem_map, List.mem_filter,
    decide_eq_true_eq] at hq
  obtain ⟨m, ⟨hm, hrec⟩, hpq⟩ := hq
  exact ⟨m, hm, hrec, hpq⟩

theorem recognizingFractions_cons_pos {m : LogMessage} {msgs : List LogMessage}
    (hm : m.status = "recognizing text") :
    recognizingFractions (m :: msgs) = m.progress :: recognizingFractions msgs := by
  simp [recognizingFractions, recognizingMsgs, List.filter_cons, hm]

theorem recognizingFractions_cons_neg {m : LogMessage} {msgs : List LogMessage}
    (hm : ¬ m.status = "recognizing text") :
    recognizingFractions (m :: msgs) = recognizingFractions msgs := by
  simp [recognizingFractions, recognizingMsgs, List.filter_cons, hm]

theorem scanl_stepProgress_chain (msgs : List LogMessage) (p : Int)
    (hp0 : 0 ≤ p) (hp100 : p ≤ 100)
    (hbound : ∀ m ∈ msgs, m.status = "recognizing text" → 0 ≤ m.progress ∧ m.progress ≤ 1)
    (hchain : List.Chain' (· ≤ ·) (recognizingFractions msgs))
    (hhead : ∀ q ∈ (recognizingFractions msgs).head?, p ≤ round (q * 100)) :
    List.Chain' (· ≤ ·) (msgs.scanl stepProgress p) ∧
    ∀ x ∈ msgs.scanl stepProgress p, 0 ≤ x ∧ x ≤ 100 := by
  induction msgs generalizing p with
  | nil =>
    refine ⟨List.chain'_singleton p, ?_⟩
    intro x hx
    have hx2 : x = p := by simpa [List.scanl] using hx
    subst hx2
    exact ⟨hp0, hp100⟩
  | cons m rest ih =>
    rw [List.scanl_cons]
    simp only [List.singleton_append]
    by_cases hm : m.status = "recognizing text"
    · have hq := hbound m (List.mem_cons_self m rest) hm
      have hstep : stepProgress p m = round (m.progress * 100) := by
        simp [stepProgress, hm]
      have hfr := @recognizingFractions_cons_pos m rest hm
      have hple : p ≤ round (m.progress * 100) := by
        apply hhead
        rw [hfr]
        rfl
      have hch2 := (List.chain'_cons'.mp (hfr ▸ hchain))
      have hrest := ih (stepProgress p m)
        (by rw [hstep]; exact round_mul100_nonneg hq.1)
        (by rw [hstep]; exact round_mul100_le_100 hq.2)
        (fun m2 hm2 => hbound m2 (List.mem_cons_of_mem m hm2))
        hch2.2
        (by
          intro q2 hq2
          rw [hstep]
          have hq2f := recognizingFractions_mem (List.mem_of_mem_head? hq2)
          obtain ⟨m2, hm2, hrec2, hpq2⟩ := hq2f
          have hle := hch2.1 q2 hq2
          exact (round_mul100_mono hle))
      constructor
      · rw [List.chain'_cons']
        constructor
        · intro y hy
          rw [scanl_head?] at hy
          have hy2 : stepProgress p m = y := by simpa using hy
          rw [← hy2, hstep]
          exact hple
        · simpa using hrest.1
      · intro x hx
        rcases List.mem_cons.mp (by simpa using hx) with hx2 | hx2
        · subst hx2; exact ⟨hp0, hp100⟩
        · exact hrest.2 x hx2
    · have hstep : stepProgress p m = p := by simp [stepProgress, hm]
      have hfr := @recognizingFractions_cons_neg m rest hm
      have hrest := ih (stepProgress p m)
        (by rw [hstep]; exact hp0)
        (by rw [hstep]; exact hp100)
        (fun m2 hm2 => hbound m2 (List.mem_cons_of_mem m hm2))
        (hfr ▸ hchain)
        (by
          intro q2 hq2
          rw [hstep]
          exact hhead q2 (hfr ▸ hq2))
      constructor
      · rw [List.chain'_cons']
        constructor
        · intro y hy
          rw [scanl_head?] at hy
          have hy2 : stepProgress p m = y := by simpa using hy
          rw [← hy2, hstep]
        · simpa using hrest.1
      · intro x hx
        rcases List.mem_cons.mp (by simpa using hx) with hx2 | hx2
        · subst hx2; exact ⟨hp0, hp100⟩
        · exact hrest.2 x hx2

/-- C8 counterexample: fractional progress values in [0,1] alone do not make
the stored progress monotone.  With `decCollab` the collaborator reports 0.9
and then 0.25 (both in [0,1]) and `recognize` then rejects: the progress
sequence is 0, 90, 25, 0, which decreases twice. -/
theorem progress_not_monotone_for_out_of_order_reports :
    (∀ m ∈ decCollab.createMsgs ++ decCollab.recogMsgs,
        m.status = "recognizing text" → 0 ≤ m.progress ∧ m.progress ≤ 1) ∧
    progressTrace decCollab = [0, 90, 25, 0] ∧
    ¬ List.Chain' (· ≤ ·) (progressTrace decCollab) := by
  have htr : progressTrace decCollab = [0, 90, 25, 0] := by
    norm_num [progressTrace, decCollab, stepProgress, List.scanl, round_eq]
  refine ⟨?_, htr, ?_⟩
  · intro m hm hrec
    simp only [decCollab, List.nil_append, List.mem_cons, List.not_mem_nil, or_false] at hm
    rcases hm with h | h <;> subst h <;> norm_num
  · rw [htr]
    norm_num [List.chain'_cons, List.chain'_singleton]

/-- C8 (amended): within a job whose recognition succeeds, if the
recognizing-text fractions reported by the collaborator lie in [0,1] and are
delivered in non-decreasing order, then the stored progress sequence — from
the initial reset through the logger updates to the final 100 — is
monotonically non-decreasing and every value lies in [0, 100]. -/
theorem progress_monotone_in_bounds (c : Collab) (t : String)
    (hbound : ∀ m ∈ c.createMsgs ++ c.recogMsgs,
        m.status = "recognizing text" → 0 ≤ m.progress ∧ m.progress ≤ 1)
    (hchain : List.Chain' (· ≤ ·) (recognizingFractions (c.createMsgs ++ c.recogMsgs)))
    (hc : c.create = .ok) (hr : c.recog = .ok t) :
    List.Chain' (· ≤ ·) (progressTrace c) ∧
    ∀ x ∈ progressTrace c, 0 ≤ x ∧ x ≤ 100 := by
  have hmain := scanl_stepProgress_chain (c.createMsgs ++ c.recogMsgs) 0 le_rfl
    (by norm_num) hbound hchain
    (by
      intro q hq
      have hqf := recognizingFractions_mem (List.mem_of_mem_head? hq)
      obtain ⟨m, hm, hrec, hpq⟩ := hqf
      subst hpq
      exact round_mul100_nonneg (hbound m hm hrec).1)
  have htr : progressTrace c
      = ((c.createMsgs ++ c.recogMsgs).scanl stepProgress 0) ++ [100] := by
    simp [progressTrace, hc, hr]
  rw [htr]
  constructor
  · rw [List.chain'_append]
    refine ⟨hmain.1, List.chain'_singleton 100, ?_⟩
    intro x hx y hy
    obtain ⟨hne, hxl⟩ := List.mem_getLast?_eq_getLast hx
    have hxm := hmain.2 x (hxl ▸ List.getLast_mem hne)
    have hy2 : (100 : Int) = y := by simpa using hy
    rw [← hy2]
    exact hxm.2
  · intro x hx
    rcases List.mem_append.mp hx with hx2 | hx2
    · exact hmain.2 x hx2
    · have hx3 : x = 100 := by simpa using hx2
      subst hx3
      exact ⟨by norm_num, le_rfl⟩

theorem incCollab_bound : ∀ m ∈ incCollab.createMsgs ++ incCollab.recogMsgs,
    m.status = "recognizing text" → 0 ≤ m.progress ∧ m.progress ≤ 1 := by
  intro m hm hrec
  simp only [incCollab, List.cons_append, List.nil_append, List.mem_cons,
    List.not_mem_nil, or_false] at hm
  rcases hm with h | h | h <;> subst h <;>
    first
    | exact absurd hrec (by decide)
    | norm_num

theorem incCollab_chain :
    List.Chain' (· ≤ ·) (recognizingFractions (incCollab.createMsgs ++ incCollab.recogMsgs)) := by
  have h : recognizingFractions (incCollab.createMsgs ++ incCollab.recogMsgs)
      = [1/4, 9/10] := rfl
  rw [h]
  norm_num [List.chain'_cons, List.chain'_singleton]

/-- Witness for C8 (amended): in-order fractions 0.25 then 0.9 with a
successful recognition. -/
theorem progress_monotone_in_bounds_witness :
    List.Chain' (· ≤ ·) (progressTrace incCollab) ∧
    ∀ x ∈ progressTrace incCollab, 0 ≤ x ∧ x ≤ 100 :=
  progress_monotone_in_bounds incCollab "TOTAL $12.34" incCollab_bound incCollab_chain
    rfl rfl

/-! ### Fidelity of the progress trace -/

theorem applyMsgs_progress_foldl (msgs : List LogMessage) (s : PageState) :
    (applyMsgs msgs s).progress = msgs.foldl stepProgress s.progress := by
  induction msgs generalizing s with
  | nil => rfl
  | cons m rest ih =>
    have h1 : applyMsgs (m :: rest) s = applyMsgs rest (logger m s) := rfl
    rw [h1, ih, List.foldl_cons, logger_progress]

theorem progressTrace_getLast (c : Collab) (s : PageState) (f : File)
    (hf : s.imageFile = some f) :
    (progressTrace c).getLast? = some (processImage c s).page.progress := by
  cases hc : c.create with
  | err e =>
    simp [progressTrace, processImage, hf, hc, catchBlock, List.getLast?_concat]
  | ok =>
    cases hr : c.recog with
    | err e =>
      simp [progressTrace, processImage, hf, hc, hr, catchBlock, List.getLast?_concat]
    | ok t =>
      simp [progressTrace, processImage, hf, hc, hr, List.getLast?_concat]

end ImageToText
